import Mathlib

/-!
Verification development for the `flask_dogpile_cache.py` facade
(flask-dogpile-cache): a shallow embedding of the `DogpileCache` class —
configuration validation and region-registry construction (`init_app` /
`_set_cache_regions`), region lookup (`get_region`, `get_all_regions`,
`get_region_decorator`), the `region(name)` binding decorator and the
wrapper it returns, and the lifecycle operations (`invalidate`, `refresh`,
`set`, `invalidate_region`, `invalidate_all_regions`).

Python dicts are modelled as insertion-ordered association lists, Python
`None` as `Option.none`, and exceptions as an explicit `PyErr` error type
threaded through `Except`.  The external Cache Engine (dogpile.cache) is
out of scope of the repository; its per-region behaviour (read-through
call, refresh, set, invalidate) is modelled from the spec's collaborator
interface, with the region cache as explicit state.
-/

/-- A Python value stored in a raw configuration dict (what `init_app`
receives and mutates via `setdefault`). -/
inductive PyVal where
  | pnone
  | pstr (s : String)
  | pint (n : Int)
  | plist (l : List PyVal)
  | pdict (d : List (String × PyVal))
  | pbool (b : Bool)

/-- Lookup in an insertion-ordered association list (Python dict read). -/
def alistLookup {κ α : Type} [DecidableEq κ] : List (κ × α) → κ → Option α
  | [], _ => none
  | (k', v) :: d, k => if k' = k then some v else alistLookup d k

/-- Python dict assignment `d[k] = v`: replace the value at the first
occurrence of `k` in place, else append the new entry. -/
def alistSet {κ α : Type} [DecidableEq κ] : List (κ × α) → κ → α → List (κ × α)
  | [], k, v => [(k, v)]
  | (k', v') :: d, k, v => if k' = k then (k, v) :: d else (k', v') :: alistSet d k v

/-- Python `d.setdefault(k, v)`: insert `(k, v)` only when `k` is absent. -/
def alistSetdefault {κ α : Type} [DecidableEq κ] (d : List (κ × α)) (k : κ) (v : α) :
    List (κ × α) :=
  match alistLookup d k with
  | some _ => d
  | none => d ++ [(k, v)]

/-- Python `d.update(e)`: assign every entry of `e` into `d`, in order. -/
def alistUpdate {κ α : Type} [DecidableEq κ] (d e : List (κ × α)) : List (κ × α) :=
  e.foldl (fun a kv => alistSet a kv.1 kv.2) d

/-- A value inside a backend-`arguments` dict (`DOGPILE_CACHE_ARGUMENTS`
or a region tuple's 5th element). -/
inductive ArgVal where
  | vstr (s : String)
  | vlist (l : List String)
  | vint (n : Int)
  | vbool (b : Bool)
deriving DecidableEq, Repr

/-- A backend-`arguments` dict. -/
abbrev ArgsDict := List (String × ArgVal)

/-- The optional 5th element of a region tuple: either a dict or some
non-dict value (which `_set_cache_regions` rejects with a ValueError). -/
inductive ArgsElem where
  | adict (d : ArgsDict)
  | nondict
deriving DecidableEq, Repr

/-- One entry of `DOGPILE_CACHE_REGIONS`: a positional tuple of 2 to 5
elements.  `tooShort` stands for any tuple of fewer than 2 elements;
`fields` carries name and timeout plus the optional positional elements
backend (index 2), urls (index 3) and arguments (index 4). -/
inductive RegionTuple where
  | tooShort
  | fields (name : String) (timeout : Int) (backend? : Option String)
      (urls? : Option (List String)) (args? : Option ArgsElem)
deriving DecidableEq, Repr

/-- The declared region name of a tuple (index 0). -/
def tupleName : RegionTuple → String
  | .tooShort => ""
  | .fields name _ _ _ _ => name

/-- The configuration as `_set_cache_regions` reads it, after `init_app`'s
`setdefault` calls: `backend` and `urls` are the global defaults (`none`
models Python `None`), `arguments` is `DOGPILE_CACHE_ARGUMENTS` (already
validated to be a dict), `regions` is `DOGPILE_CACHE_REGIONS`. -/
structure Config where
  backend : Option String
  urls : Option (List String)
  arguments : ArgsDict
  regions : List RegionTuple
deriving DecidableEq, Repr

/-- Python truthiness of `config['DOGPILE_CACHE_BACKEND']` (`None` and the
empty string are falsy). -/
def backendTruthy (cfg : Config) : Bool :=
  match cfg.backend with
  | none => false
  | some s => !s.isEmpty

/-- Python truthiness of `config['DOGPILE_CACHE_URLS']` (`None` and the
empty list are falsy). -/
def urlsTruthy (cfg : Config) : Bool :=
  match cfg.urls with
  | none => false
  | some l => !l.isEmpty

/-- The Python exceptions the facade (and the modelled engine) can raise. -/
inductive PyErr where
  | valueError (msg : String)
  | notReady
  | keyError (k : String)
  | typeError
  | attributeError
  | engineError (region : String)
deriving DecidableEq, Repr

def tupleTooShortMsg : String :=
  "DOGPILE_CACHE_REGIONS tuple item length must be at least 2"

def backendMissingMsg : String := "DOGPILE_CACHE_BACKEND must be specified"

def urlsMissingMsg : String := "DOGPILE_CACHE_URLS must be specified"

def argsNotDictMsg : String := "regions_arguments must be dict"

def regionsEmptyMsg : String := "DOGPILE_CACHE_REGIONS must be list or tuple"

/-- Lines 129-136 of `_set_cache_regions`: the per-region backend when the
tuple has more than 2 elements, else the global backend when truthy, else
a ValueError. -/
def resolveBackend (cfg : Config) : Option String → Except PyErr String
  | some b => .ok b
  | none =>
    match cfg.backend with
    | some s => if s.isEmpty then .error (.valueError backendMissingMsg) else .ok s
    | none => .error (.valueError backendMissingMsg)

/-- Lines 138-143: the per-region urls when the tuple has more than 3
elements, else the global urls when truthy, else a ValueError. -/
def resolveUrls (cfg : Config) : Option (List String) → Except PyErr (List String)
  | some u => .ok u
  | none =>
    match cfg.urls with
    | some l => if l.isEmpty then .error (.valueError urlsMissingMsg) else .ok l
    | none => .error (.valueError urlsMissingMsg)

/-- Lines 145-150: the per-region arguments when the tuple has more than 4
elements (rejecting a non-dict), else the global arguments. -/
def resolveArgs (cfg : Config) : Option ArgsElem → Except PyErr ArgsDict
  | some (.adict d) => .ok d
  | some .nondict => .error (.valueError argsNotDictMsg)
  | none => .ok cfg.arguments

/-- Lines 152-153: `arguments = dict(url=region_urls)` followed by
`arguments.update(region_arguments)`. -/
def effectiveArguments (urls : List String) (rargs : ArgsDict) : ArgsDict :=
  alistUpdate [("url", ArgVal.vlist urls)] rargs

/-- What the facade remembers about one configured region: the values it
passed to the Cache Engine's `configure` (the wrapper argument is opaque
to this core and not modelled). -/
structure RegionConf where
  backend : String
  timeout : Int
  arguments : ArgsDict
deriving DecidableEq, Repr

/-- One iteration of the `_set_cache_regions` loop on a single region
tuple: validate, resolve the three optional fields, and produce the name
and the configuration handed to the Cache Engine. -/
def resolveTuple (cfg : Config) : RegionTuple → Except PyErr (String × RegionConf)
  | .tooShort => .error (.valueError tupleTooShortMsg)
  | .fields name timeout backend? urls? args? =>
    match resolveBackend cfg backend? with
    | .error e => .error e
    | .ok b =>
      match resolveUrls cfg urls? with
      | .error e => .error e
      | .ok u =>
        match resolveArgs cfg args? with
        | .error e => .error e
        | .ok ra => .ok (name, ⟨b, timeout, effectiveArguments u ra⟩)

/-- Resolution of a whole tuple list, stopping at the first failure (the
order in which the loop would encounter errors). -/
def resolveTuples (cfg : Config) : List RegionTuple → Except PyErr (List (String × RegionConf))
  | [] => .ok []
  | t :: ts =>
    match resolveTuple cfg t, resolveTuples cfg ts with
    | .error e, _ => .error e
    | .ok _, .error e => .error e
    | .ok p, .ok l => .ok (p :: l)

/-- The `_cache_regions` dict: region name to configured region. -/
abbrev Registry := List (String × RegionConf)

/-- The loop of `_set_cache_regions` (lines 120-164): the regions dict was
already assigned before the loop, so each iteration adds one entry by dict
assignment, and an exception leaves the dict as built so far and
propagates.  Returns the final dict together with the propagated error. -/
def buildRegions (cfg : Config) : List RegionTuple → Registry → Registry × Option PyErr
  | [], acc => (acc, none)
  | t :: ts, acc =>
    match resolveTuple cfg t with
    | .error e => (acc, some e)
    | .ok p => buildRegions cfg ts (alistSet acc p.1 p.2)

/-- The facade's state: `_cache_regions` is either the `NotInitialized`
sentinel (`none`) or a published dict.  `_cache_regions_decorators` is
assigned and populated in lockstep (lines 117-118 and 163-164), so one
field models both. -/
structure DogpileCache where
  cacheRegions : Option Registry
deriving DecidableEq, Repr

/-- A freshly constructed facade, before any `init_app`. -/
def dcUninit : DogpileCache := ⟨none⟩

/-- `init_app` on the structured view of the configuration (the raw-dict
`setdefault` mutation of lines 96-98 is modelled by
`initAppSetDefaults`): validate that `DOGPILE_CACHE_REGIONS` is non-empty
(line 99-103), then run `_set_cache_regions`, which publishes the regions
dict before the loop and therefore publishes a partially built dict when a
tuple fails mid-loop.  Returns the facade state after the call and the
raised error, if any. -/
def initApp (dc : DogpileCache) (cfg : Config) : DogpileCache × Option PyErr :=
  if cfg.regions.isEmpty then
    (dc, some (.valueError regionsEmptyMsg))
  else
    (⟨some (buildRegions cfg cfg.regions []).1⟩, (buildRegions cfg cfg.regions []).2)

/-- `get_region` (lines 171-183): RuntimeError on the `NotInitialized`
sentinel, else a dict index (KeyError when the name is absent). -/
def getRegion (dc : DogpileCache) (name : String) : Except PyErr RegionConf :=
  match dc.cacheRegions with
  | none => .error .notReady
  | some reg =>
    match alistLookup reg name with
    | some r => .ok r
    | none => .error (.keyError name)

/-- `get_all_regions` (lines 185-195): RuntimeError on the sentinel, else
the regions dict itself. -/
def getAllRegions (dc : DogpileCache) : Except PyErr Registry :=
  match dc.cacheRegions with
  | none => .error .notReady
  | some reg => .ok reg

/-- `get_region_decorator` (lines 197-209): the decorators dict mirrors
the regions dict entry for entry, so the lookup behaves like
`get_region`; the decorator value itself is the region's read-through
dispatcher, identified here with the region's configuration. -/
def getRegionDecorator (dc : DogpileCache) (name : String) : Except PyErr RegionConf :=
  getRegion dc name

/-- Positional call arguments of a cached function. -/
abbrev Args := List Int

/-- One region's cache contents in the Cache Engine: argument tuple to
stored value (no expiry is modelled; every entry is valid). -/
abbrev Cache := List (Args × Int)

/-- The Cache Engine's state: one cache per region name. -/
abbrev Store := List (String × Cache)

def storeGetCache (st : Store) (name : String) : Cache :=
  (alistLookup st name).getD []

def storeSetCache (st : Store) (name : String) (c : Cache) : Store :=
  alistSet st name c

def cacheGet (c : Cache) (args : Args) : Option Int := alistLookup c args

def cacheSet (c : Cache) (args : Args) (v : Int) : Cache := alistSet c args v

/-- Dropping the cached entry for one argument tuple. -/
def cacheDel (c : Cache) (args : Args) : Cache :=
  c.filter (fun e => e.1 != args)

/-- A Python function object as the facade sees it: the
`dogpile_cache_region_name` attribute and its call behaviour (positional
integer arguments to an integer result). -/
structure PyFuncObj where
  attr : Option String
  body : Args → Int

/-- The binding effect of the `region(name)` decorator (lines 225-227):
`setattr(func, FUNC_REGION_NAME_ATTR, name)`, an unconditional attribute
assignment; the wrapper returned by `functools.wraps` carries the same
attribute.  Applying the decorator performs no readiness check. -/
def regionDecorate (name : String) (f : PyFuncObj) : PyFuncObj :=
  { f with attr := some name }

/-- Modelled from the spec: the Cache Engine's read-through dispatcher for
one region (`call_through(function, args)`) — return the cached value for
`args` when present, else compute the function, store the result and
return it. -/
def callThrough (c : Cache) (f : Args → Int) (args : Args) : Int × Cache :=
  match cacheGet c args with
  | some v => (v, c)
  | none => (f args, cacheSet c args (f args))

/-- The wrapper returned by `region(name)` (lines 228-235): a membership
test `name in self._cache_regions` — a TypeError when that field is still
the `NotInitialized` sentinel, a KeyError when the region is absent —
then delegation to the region's read-through dispatcher. -/
def wrapperCall (dc : DogpileCache) (name : String) (f : Args → Int)
    (st : Store) (args : Args) : Except PyErr (Int × Store) :=
  match dc.cacheRegions with
  | none => .error .typeError
  | some reg =>
    if (alistLookup reg name).isSome then
      .ok ((callThrough (storeGetCache st name) f args).1,
        storeSetCache st name (callThrough (storeGetCache st name) f args).2)
    else .error (.keyError name)

/-- `DogpileCache.invalidate` (lines 275-291): read the function's region
attribute (AttributeError when never bound), fetch the region decorator
(RuntimeError before init), then drop the cached entry for `args`. -/
def facadeInvalidate (dc : DogpileCache) (w : PyFuncObj) (st : Store)
    (args : Args) : Except PyErr Store :=
  match w.attr with
  | none => .error .attributeError
  | some name =>
    match getRegionDecorator dc name with
    | .error e => .error e
    | .ok _ => .ok (storeSetCache st name (cacheDel (storeGetCache st name) args))

/-- `DogpileCache.refresh` (lines 293-313): read the attribute, fetch the
region decorator, then hand the *wrapper itself* to the engine's refresh;
the engine (modelled from the spec: recompute via the given function and
store) therefore recomputes by the wrapper's own read-through call, and
the value obtained that way is stored for `args` and returned. -/
def facadeRefresh (dc : DogpileCache) (w : PyFuncObj) (st : Store)
    (args : Args) : Except PyErr (Int × Store) :=
  match w.attr with
  | none => .error .attributeError
  | some name =>
    match getRegionDecorator dc name with
    | .error e => .error e
    | .ok _ =>
      match wrapperCall dc name w.body st args with
      | .error e => .error e
      | .ok (v, st') =>
        .ok (v, storeSetCache st' name (cacheSet (storeGetCache st' name) args v))

/-- `DogpileCache.set` (lines 315-333): read the attribute, fetch the
region decorator, then store `value` for `args` in the function's region. -/
def facadeSet (dc : DogpileCache) (w : PyFuncObj) (value : Int) (st : Store)
    (args : Args) : Except PyErr Store :=
  match w.attr with
  | none => .error .attributeError
  | some name =>
    match getRegionDecorator dc name with
    | .error e => .error e
    | .ok _ => .ok (storeSetCache st name (cacheSet (storeGetCache st name) args value))

/-- `invalidate_region` (lines 238-256): `get_region` then the engine's
per-region invalidate.  `failing` injects engine failures (the spec: a
Cache Engine failure propagates immediately to the caller); `hard` is
passed through to the engine and does not affect dispatch. -/
def invalidateRegion (dc : DogpileCache) (failing : List String)
    (name : String) (hard : Bool) : Except PyErr Unit :=
  match getRegion dc name with
  | .error e => .error e
  | .ok _ => if failing.contains name then .error (.engineError name) else .ok ()

/-- The loop of `invalidate_all_regions` (lines 272-273): the region names
in registry order; the first exception aborts the loop and propagates.
Returns the names attempted, in order, and the propagated error. -/
def invalidateAllLoop (dc : DogpileCache) (failing : List String) (hard : Bool) :
    List String → List String × Option PyErr
  | [] => ([], none)
  | n :: ns =>
    match invalidateRegion dc failing n hard with
    | .error e => ([n], some e)
    | .ok _ =>
      (n :: (invalidateAllLoop dc failing hard ns).1,
        (invalidateAllLoop dc failing hard ns).2)

/-- `invalidate_all_regions` (lines 258-273): iterate `invalidate_region`
over `get_all_regions().keys()`. -/
def invalidateAllRegions (dc : DogpileCache) (failing : List String)
    (hard : Bool) : List String × Option PyErr :=
  match getAllRegions dc with
  | .error e => ([], some e)
  | .ok reg => invalidateAllLoop dc failing hard (reg.map (fun p => p.1))

/-- The raw configuration dict handed to `init_app`. -/
abbrev RawConfig := List (String × PyVal)

/-- `init_app` lines 96-98: the three `setdefault` calls on the
caller-supplied config dict; the in-place mutation is modelled by
returning the updated mapping. -/
def initAppSetDefaults (cfg : RawConfig) : RawConfig :=
  alistSetdefault
    (alistSetdefault
      (alistSetdefault cfg "DOGPILE_CACHE_BACKEND" (.pstr "dogpile.cache.memcached"))
      "DOGPILE_CACHE_URLS" .pnone)
    "DOGPILE_CACHE_ARGUMENTS" (.pdict [])

/-! ### Association-list lemmas (dict behaviour) -/

theorem alistLookup_set_self {κ α : Type} [DecidableEq κ] (d : List (κ × α)) (k : κ) (v : α) :
    alistLookup (alistSet d k v) k = some v := by
  induction d with
  | nil => simp [alistSet, alistLookup]
  | cons hd tl ih =>
    obtain ⟨k', v'⟩ := hd
    by_cases h : k' = k
    · simp [alistSet, h, alistLookup]
    · simp [alistSet, h, alistLookup, ih]

theorem alistLookup_set_ne {κ α : Type} [DecidableEq κ] (d : List (κ × α)) (k k' : κ)
    (v : α) (h : k' ≠ k) : alistLookup (alistSet d k v) k' = alistLookup d k' := by
  induction d with
  | nil => simp [alistSet, alistLookup, Ne.symm h]
  | cons hd tl ih =>
    obtain ⟨k0, v0⟩ := hd
    by_cases h0 : k0 = k
    · subst h0
      simp [alistSet, alistLookup, Ne.symm h]
    · simp only [alistSet, if_neg h0, alistLookup]
      by_cases h1 : k0 = k'
      · simp [h1]
      · simp [h1, ih]

theorem alistSet_eq_of_lookup {κ α : Type} [DecidableEq κ] (d : List (κ × α)) (k : κ) (v : α)
    (h : alistLookup d k = some v) : alistSet d k v = d := by
  induction d with
  | nil => simp [alistLookup] at h
  | cons hd tl ih =>
    obtain ⟨k', v'⟩ := hd
    by_cases h0 : k' = k
    · subst h0
      simp [alistLookup] at h
      simp [alistSet, h]
    · simp only [alistLookup, if_neg h0] at h
      simp [alistSet, h0, ih h]

theorem alistLookup_append {κ α : Type} [DecidableEq κ] (d1 d2 : List (κ × α)) (k : κ) :
    alistLookup (d1 ++ d2) k = (alistLookup d1 k).orElse (fun _ => alistLookup d2 k) := by
  induction d1 with
  | nil => simp [alistLookup]
  | cons hd tl ih =>
    obtain ⟨k', v'⟩ := hd
    by_cases h : k' = k
    · simp [alistLookup, h]
    · simp [alistLookup, h, ih]

theorem alistSet_of_lookup_none {κ α : Type} [DecidableEq κ] (d : List (κ × α)) (k : κ) (v : α)
    (h : alistLookup d k = none) : alistSet d k v = d ++ [(k, v)] := by
  induction d with
  | nil => simp [alistSet]
  | cons hd tl ih =>
    obtain ⟨k', v'⟩ := hd
    by_cases h0 : k' = k
    · simp [alistLookup, h0] at h
    · simp only [alistLookup, if_neg h0] at h
      simp [alistSet, h0, ih h]

theorem alistUpdate_cons {κ α : Type} [DecidableEq κ] (d : List (κ × α)) (p : κ × α)
    (e : List (κ × α)) : alistUpdate d (p :: e) = alistUpdate (alistSet d p.1 p.2) e := rfl

theorem alistLookup_update_not_mem {κ α : Type} [DecidableEq κ] (e : List (κ × α))
    (d : List (κ × α)) (k : κ) (h : k ∉ e.map Prod.fst) :
    alistLookup (alistUpdate d e) k = alistLookup d k := by
  induction e generalizing d with
  | nil => rfl
  | cons hd tl ih =>
    obtain ⟨k', v'⟩ := hd
    simp only [List.map_cons, List.mem_cons, not_or] at h
    rw [alistUpdate_cons]
    rw [ih _ h.2]
    exact alistLookup_set_ne d k' k v' (fun he => h.1 he)

theorem alistLookup_update {κ α : Type} [DecidableEq κ] (e : List (κ × α))
    (d : List (κ × α)) (k : κ) (h : (e.map Prod.fst).Nodup) :
    alistLookup (alistUpdate d e) k =
      (alistLookup e k).orElse (fun _ => alistLookup d k) := by
  induction e generalizing d with
  | nil => simp [alistUpdate, alistLookup]
  | cons hd tl ih =>
    obtain ⟨k', v'⟩ := hd
    simp only [List.map_cons, List.nodup_cons] at h
    rw [alistUpdate_cons]
    by_cases hk : k' = k
    · subst hk
      rw [alistLookup_update_not_mem tl _ k' h.1]
      simp [alistLookup, alistLookup_set_self]
    · rw [ih _ h.2]
      simp [alistLookup, hk, alistLookup_set_ne d k' k v' (Ne.symm hk)]

theorem alistLookup_setdefault_of_none {κ α : Type} [DecidableEq κ] (d : List (κ × α))
    (k : κ) (v : α) (h : alistLookup d k = none) :
    alistLookup (alistSetdefault d k v) k = some v := by
  rw [alistSetdefault, h, alistLookup_append, h]
  simp [alistLookup]

theorem alistLookup_setdefault_of_some {κ α : Type} [DecidableEq κ] (d : List (κ × α))
    (k k' : κ) (v v' : α) (h : alistLookup d k' = some v') :
    alistLookup (alistSetdefault d k v) k' = some v' := by
  rw [alistSetdefault]
  cases h0 : alistLookup d k with
  | some w => exact h
  | none => rw [alistLookup_append, h]; rfl

theorem alistLookup_setdefault_ne {κ α : Type} [DecidableEq κ] (d : List (κ × α))
    (k k' : κ) (v : α) (h : k' ≠ k) :
    alistLookup (alistSetdefault d k v) k' = alistLookup d k' := by
  rw [alistSetdefault]
  cases h0 : alistLookup d k with
  | some w => rfl
  | none =>
    rw [alistLookup_append]
    cases h1 : alistLookup d k' with
    | some w => rfl
    | none => simp [alistLookup, Ne.symm h]

/-! ### Registry-construction lemmas -/

theorem resolveTuple_fst (cfg : Config) (t : RegionTuple) (p : String × RegionConf)
    (h : resolveTuple cfg t = .ok p) : p.1 = tupleName t := by
  cases t with
  | tooShort => simp [resolveTuple] at h
  | fields name timeout b? u? a? =>
    cases hb : resolveBackend cfg b? with
    | error e => simp [resolveTuple, hb] at h
    | ok b =>
      cases hu : resolveUrls cfg u? with
      | error e => simp [resolveTuple, hb, hu] at h
      | ok u =>
        cases ha : resolveArgs cfg a? with
        | error e => simp [resolveTuple, hb, hu, ha] at h
        | ok ra =>
          simp [resolveTuple, hb, hu, ha] at h
          simp [tupleName, ← h]

theorem resolveTuples_names (cfg : Config) (ts : List RegionTuple) :
    ∀ l, resolveTuples cfg ts = .ok l →
      l.map Prod.fst = ts.map tupleName ∧ l.length = ts.length := by
  induction ts with
  | nil =>
    intro l h
    simp [resolveTuples] at h
    simp [← h]
  | cons t ts ih =>
    intro l h
    cases h1 : resolveTuple cfg t with
    | error e => simp [resolveTuples, h1] at h
    | ok p =>
      cases h2 : resolveTuples cfg ts with
      | error e => simp [resolveTuples, h1, h2] at h
      | ok l' =>
        simp only [resolveTuples, h1, h2] at h
        cases h
        obtain ⟨ih1, ih2⟩ := ih l' h2
        simp [ih1, ih2, resolveTuple_fst cfg t p h1]

theorem buildRegions_of_ok (cfg : Config) (ts : List RegionTuple) :
    ∀ l acc, resolveTuples cfg ts = .ok l →
      buildRegions cfg ts acc = (l.foldl (fun a p => alistSet a p.1 p.2) acc, none) := by
  induction ts with
  | nil =>
    intro l acc h
    simp [resolveTuples] at h
    subst h
    simp [buildRegions]
  | cons t ts ih =>
    intro l acc h
    cases h1 : resolveTuple cfg t with
    | error e => simp [resolveTuples, h1] at h
    | ok p =>
      cases h2 : resolveTuples cfg ts with
      | error e => simp [resolveTuples, h1, h2] at h
      | ok l' =>
        simp only [resolveTuples, h1, h2] at h
        cases h
        simp only [buildRegions, h1, List.foldl_cons]
        exact ih l' _ h2

theorem buildRegions_of_front_ok (cfg : Config) (ts1 : List RegionTuple) :
    ∀ l1 acc ts2, resolveTuples cfg ts1 = .ok l1 →
      buildRegions cfg (ts1 ++ ts2) acc =
        buildRegions cfg ts2 (l1.foldl (fun a p => alistSet a p.1 p.2) acc) := by
  induction ts1 with
  | nil =>
    intro l1 acc ts2 h
    simp [resolveTuples] at h
    subst h
    simp
  | cons t ts ih =>
    intro l1 acc ts2 h
    cases h1 : resolveTuple cfg t with
    | error e => simp [resolveTuples, h1] at h
    | ok p =>
      cases h2 : resolveTuples cfg ts with
      | error e => simp [resolveTuples, h1, h2] at h
      | ok l' =>
        simp only [resolveTuples, h1, h2] at h
        cases h
        simp only [List.cons_append, buildRegions, h1, List.foldl_cons]
        exact ih l' _ ts2 h2

theorem buildRegions_snd_isSome (cfg : Config) (ts : List RegionTuple)
    (t : RegionTuple) (e : PyErr) (he : resolveTuple cfg t = .error e) :
    ∀ acc, t ∈ ts → ((buildRegions cfg ts acc).2).isSome := by
  induction ts with
  | nil => intro acc ht; cases ht
  | cons hd tl ih =>
    intro acc ht
    rcases List.mem_cons.mp ht with h | h
    · subst h; simp [buildRegions, he]
    · cases h1 : resolveTuple cfg hd with
      | error e' => simp [buildRegions, h1]
      | ok p =>
        simp only [buildRegions, h1]
        exact ih _ h

theorem foldl_alistSet_of_fresh {κ α : Type} [DecidableEq κ] (l : List (κ × α)) :
    ∀ acc : List (κ × α), (l.map Prod.fst).Nodup →
      (∀ p ∈ l, alistLookup acc p.1 = none) →
      l.foldl (fun a p => alistSet a p.1 p.2) acc = acc ++ l := by
  induction l with
  | nil => intro acc _ _; simp
  | cons p l ih =>
    intro acc hnd hfresh
    simp only [List.map_cons, List.nodup_cons] at hnd
    have hset : alistSet acc p.1 p.2 = acc ++ [p] := by
      rw [alistSet_of_lookup_none acc p.1 p.2 (hfresh p (List.mem_cons_self p l))]
    rw [List.foldl_cons, hset, ih (acc ++ [p]) hnd.2]
    · simp
    · intro q hq
      rw [alistLookup_append]
      rw [hfresh q (List.mem_cons_of_mem p hq)]
      have hne : p.1 ≠ q.1 := by
        intro he
        exact hnd.1 (he ▸ List.mem_map_of_mem Prod.fst hq)
      simp [alistLookup, hne]

/-! ### Resolution helper lemmas -/

theorem resolveBackend_none_of_falsy (cfg : Config) (h : backendTruthy cfg = false) :
    resolveBackend cfg none = .error (.valueError backendMissingMsg) := by
  cases hcb : cfg.backend with
  | none => simp [resolveBackend, hcb]
  | some s =>
    simp only [backendTruthy, hcb, Bool.not_eq_false'] at h
    simp [resolveBackend, hcb, h]

theorem resolveUrls_none_of_falsy (cfg : Config) (h : urlsTruthy cfg = false) :
    resolveUrls cfg none = .error (.valueError urlsMissingMsg) := by
  cases hcu : cfg.urls with
  | none => simp [resolveUrls, hcu]
  | some l =>
    simp only [urlsTruthy, hcu, Bool.not_eq_false'] at h
    simp [resolveUrls, hcu, h]

theorem resolveBackend_none_of_truthy (cfg : Config) (h : backendTruthy cfg = true) :
    ∃ g, cfg.backend = some g ∧ resolveBackend cfg none = .ok g := by
  cases hcb : cfg.backend with
  | none => simp [backendTruthy, hcb] at h
  | some s =>
    simp only [backendTruthy, hcb, Bool.not_eq_true'] at h
    exact ⟨s, rfl, by simp [resolveBackend, hcb, h]⟩

theorem resolveUrls_none_of_truthy (cfg : Config) (h : urlsTruthy cfg = true) :
    ∃ g, cfg.urls = some g ∧ resolveUrls cfg none = .ok g := by
  cases hcu : cfg.urls with
  | none => simp [urlsTruthy, hcu] at h
  | some l =>
    simp only [urlsTruthy, hcu, Bool.not_eq_true'] at h
    exact ⟨l, rfl, by simp [resolveUrls, hcu, h]⟩

/-! ### Claim C10 -/

/-- C10: `init_app` mutates the caller-supplied configuration mapping in
place (modelled by returning the updated mapping): when absent, the keys
`DOGPILE_CACHE_BACKEND`, `DOGPILE_CACHE_URLS` and `DOGPILE_CACHE_ARGUMENTS`
are inserted with defaults `'dogpile.cache.memcached'`, `None` and the
empty dict respectively, while every key already present keeps its
original value. -/
theorem C10_initApp_setdefault_mutation (cfg : RawConfig) :
    (alistLookup cfg "DOGPILE_CACHE_BACKEND" = none →
      alistLookup (initAppSetDefaults cfg) "DOGPILE_CACHE_BACKEND" =
        some (PyVal.pstr "dogpile.cache.memcached")) ∧
    (alistLookup cfg "DOGPILE_CACHE_URLS" = none →
      alistLookup (initAppSetDefaults cfg) "DOGPILE_CACHE_URLS" = some PyVal.pnone) ∧
    (alistLookup cfg "DOGPILE_CACHE_ARGUMENTS" = none →
      alistLookup (initAppSetDefaults cfg) "DOGPILE_CACHE_ARGUMENTS" =
        some (PyVal.pdict [])) ∧
    (∀ k v, alistLookup cfg k = some v →
      alistLookup (initAppSetDefaults cfg) k = some v) := by
  have hUB : ("DOGPILE_CACHE_URLS" : String) ≠ "DOGPILE_CACHE_BACKEND" := by decide
  have hAB : ("DOGPILE_CACHE_ARGUMENTS" : String) ≠ "DOGPILE_CACHE_BACKEND" := by decide
  have hAU : ("DOGPILE_CACHE_ARGUMENTS" : String) ≠ "DOGPILE_CACHE_URLS" := by decide
  refine ⟨?_, ?_, ?_, ?_⟩
  · intro h
    unfold initAppSetDefaults
    apply alistLookup_setdefault_of_some
    apply alistLookup_setdefault_of_some
    exact alistLookup_setdefault_of_none _ _ _ h
  · intro h
    unfold initAppSetDefaults
    apply alistLookup_setdefault_of_some
    apply alistLookup_setdefault_of_none
    rw [alistLookup_setdefault_ne _ _ _ _ hUB]
    exact h
  · intro h
    unfold initAppSetDefaults
    apply alistLookup_setdefault_of_none
    rw [alistLookup_setdefault_ne _ _ _ _ hAU, alistLookup_setdefault_ne _ _ _ _ hAB]
    exact h
  · intro k v h
    unfold initAppSetDefaults
    apply alistLookup_setdefault_of_some
    apply alistLookup_setdefault_of_some
    exact alistLookup_setdefault_of_some _ _ _ _ _ h

/-- A concrete raw configuration for the C10 witness: urls present,
backend and arguments absent. -/
def sampleRawConfig : RawConfig :=
  [("DOGPILE_CACHE_URLS", PyVal.plist [PyVal.pstr "127.0.0.1:11211"])]

/-- Witness for C10 at `sampleRawConfig`. -/
theorem C10_initApp_setdefault_mutation_witness :
    alistLookup (initAppSetDefaults sampleRawConfig) "DOGPILE_CACHE_BACKEND" =
      some (PyVal.pstr "dogpile.cache.memcached") ∧
    alistLookup (initAppSetDefaults sampleRawConfig) "DOGPILE_CACHE_ARGUMENTS" =
      some (PyVal.pdict []) ∧
    alistLookup (initAppSetDefaults sampleRawConfig) "DOGPILE_CACHE_URLS" =
      some (PyVal.plist [PyVal.pstr "127.0.0.1:11211"]) :=
  ⟨(C10_initApp_setdefault_mutation sampleRawConfig).1 rfl,
   (C10_initApp_setdefault_mutation sampleRawConfig).2.2.1 rfl,
   (C10_initApp_setdefault_mutation sampleRawConfig).2.2.2 _ _ rfl⟩

/-! ### Claim C9 -/

/-- The spec's description of the effective `arguments` mapping handed to
the Cache Engine's `configure`: the resolved arguments take precedence
key-by-key, and only the key `url` falls back to the synthesized endpoint
entry.  (Spec-side definition, to be compared with `effectiveArguments`,
which is translated from the code.) -/
def specArgumentsLookup (urls : List String) (rargs : ArgsDict) (k : String) : Option ArgVal :=
  (alistLookup rargs k).orElse
    (fun _ => if k = "url" then some (ArgVal.vlist urls) else none)

/-- C9: for a region tuple supplying a 5th (arguments) element, the
`arguments` mapping passed to `configure` equals the singleton
`{url: resolved_endpoints}` updated key-by-key with the resolved
arguments; the resolved arguments are exactly the per-region dict when
supplied (fully replacing the globals — the first conjunct holds for
every configuration) and exactly the globals otherwise; and an explicit
`url` key in the resolved arguments overrides the synthesized entry (the
lookup characterization). -/
theorem C9_arguments_full_replacement (cfg : Config) (name : String) (timeout : Int)
    (backend? : Option String) (urls? : Option (List String)) (d : ArgsDict)
    (p : String × RegionConf)
    (hnd : (d.map Prod.fst).Nodup)
    (hres : resolveTuple cfg (.fields name timeout backend? urls? (some (.adict d))) = .ok p) :
    resolveArgs cfg (some (.adict d)) = .ok d ∧
    resolveArgs cfg none = .ok cfg.arguments ∧
    ∃ u, resolveUrls cfg urls? = .ok u ∧
      p.2.arguments = effectiveArguments u d ∧
      ∀ k, alistLookup p.2.arguments k = specArgumentsLookup u d k := by
  refine ⟨rfl, rfl, ?_⟩
  cases hb : resolveBackend cfg backend? with
  | error e => simp [resolveTuple, hb] at hres
  | ok b =>
    cases hu : resolveUrls cfg urls? with
    | error e => simp [resolveTuple, hb, hu] at hres
    | ok u =>
      refine ⟨u, rfl, ?_⟩
      simp only [resolveTuple, hb, hu, resolveArgs] at hres
      have hp : p = (name, ⟨b, timeout, effectiveArguments u d⟩) := by
        cases hres; rfl
      subst hp
      refine ⟨rfl, ?_⟩
      intro k
      show alistLookup (alistUpdate [("url", ArgVal.vlist u)] d) k = _
      rw [alistLookup_update d _ k hnd]
      unfold specArgumentsLookup
      by_cases hk : k = "url"
      · subst hk
        simp [alistLookup]
      · simp [alistLookup, hk, Ne.symm hk]

/-- A concrete configuration for the C9 witness: truthy globals and a
global arguments dict that the per-region dict must fully replace. -/
def sampleCfg9 : Config :=
  ⟨some "dogpile.cache.memcached", some ["127.0.0.1:11211"],
   [("binary", ArgVal.vbool true)], []⟩

/-- The per-region arguments dict of the C9 witness, with an explicit
`url` key. -/
def sampleArgs9 : ArgsDict :=
  [("url", ArgVal.vstr "unix:/tmp/memcached.sock"),
   ("min_compress_len", ArgVal.vint 1000)]

/-- The resolved (name, configuration) pair of the C9 witness. -/
def sampleP9 : String × RegionConf :=
  ("hour", ⟨"dogpile.cache.memcached", 3600,
    [("url", ArgVal.vstr "unix:/tmp/memcached.sock"),
     ("min_compress_len", ArgVal.vint 1000)]⟩)

/-- Witness for C9 at a concrete region tuple carrying a 5th element. -/
theorem C9_arguments_full_replacement_witness :
    resolveArgs sampleCfg9 (some (.adict sampleArgs9)) = .ok sampleArgs9 ∧
    resolveArgs sampleCfg9 none = .ok sampleCfg9.arguments ∧
    ∃ u, resolveUrls sampleCfg9 none = .ok u ∧
      sampleP9.2.arguments = effectiveArguments u sampleArgs9 ∧
      ∀ k, alistLookup sampleP9.2.arguments k = specArgumentsLookup u sampleArgs9 k :=
  C9_arguments_full_replacement sampleCfg9 "hour" 3600 none none sampleArgs9 sampleP9
    (by decide) (by rfl)

/-! ### Claim C6 -/

/-- C6: initialization fails when a region tuple omits its backend
(length 2) and the global backend is not set, and likewise when it omits
its endpoints (length at most 3) and the global endpoints are not set;
supplying the per-region value satisfies validation for every
configuration (hence takes precedence over any global), and a truthy
global default satisfies validation when the field is omitted. -/
theorem C6_backend_urls_defaults (cfg : Config) (name : String) (timeout : Int)
    (b : String) (u : List String) (urls? : Option (List String))
    (args? : Option ArgsElem) (ts1 ts2 : List RegionTuple) :
    (backendTruthy cfg = false →
      resolveBackend cfg none = .error (.valueError backendMissingMsg)) ∧
    (urlsTruthy cfg = false →
      resolveUrls cfg none = .error (.valueError urlsMissingMsg)) ∧
    resolveBackend cfg (some b) = .ok b ∧
    resolveUrls cfg (some u) = .ok u ∧
    (backendTruthy cfg = true →
      ∃ g, cfg.backend = some g ∧ resolveBackend cfg none = .ok g) ∧
    (urlsTruthy cfg = true →
      ∃ g, cfg.urls = some g ∧ resolveUrls cfg none = .ok g) ∧
    (cfg.regions = ts1 ++ RegionTuple.fields name timeout none urls? args? :: ts2 →
      backendTruthy cfg = false → ((initApp dcUninit cfg).2).isSome = true) ∧
    (cfg.regions = ts1 ++ RegionTuple.fields name timeout (some b) none args? :: ts2 →
      urlsTruthy cfg = false → ((initApp dcUninit cfg).2).isSome = true) := by
  refine ⟨resolveBackend_none_of_falsy cfg, resolveUrls_none_of_falsy cfg, rfl, rfl,
    resolveBackend_none_of_truthy cfg, resolveUrls_none_of_truthy cfg, ?_, ?_⟩
  · intro hreg h
    have herr : resolveTuple cfg (.fields name timeout none urls? args?) =
        .error (.valueError backendMissingMsg) := by
      simp [resolveTuple, resolveBackend_none_of_falsy cfg h]
    have hmem : RegionTuple.fields name timeout none urls? args? ∈ cfg.regions := by
      rw [hreg]; exact List.mem_append_right _ (List.mem_cons_self _ _)
    have hne : cfg.regions.isEmpty = false := by
      rw [hreg]; simp
    simp only [initApp, hne, Bool.false_eq_true, if_false]
    exact buildRegions_snd_isSome cfg cfg.regions _ _ herr [] hmem
  · intro hreg h
    have herr : resolveTuple cfg (.fields name timeout (some b) none args?) =
        .error (.valueError urlsMissingMsg) := by
      simp [resolveTuple, resolveBackend, resolveUrls_none_of_falsy cfg h]
    have hmem : RegionTuple.fields name timeout (some b) none args? ∈ cfg.regions := by
      rw [hreg]; exact List.mem_append_right _ (List.mem_cons_self _ _)
    have hne : cfg.regions.isEmpty = false := by
      rw [hreg]; simp
    simp only [initApp, hne, Bool.false_eq_true, if_false]
    exact buildRegions_snd_isSome cfg cfg.regions _ _ herr [] hmem

/-- A concrete configuration with falsy globals and a single minimal
region tuple, for the C6 witness. -/
def cfgFalsy : Config := ⟨none, none, [], [RegionTuple.fields "a" 1 none none none]⟩

/-- Witness for C6: with falsy globals an omitted backend is rejected and
initialization fails; with truthy globals the defaults satisfy
validation; a per-region backend is accepted regardless. -/
theorem C6_backend_urls_defaults_witness :
    resolveBackend cfgFalsy none = .error (.valueError backendMissingMsg) ∧
    resolveUrls cfgFalsy none = .error (.valueError urlsMissingMsg) ∧
    ((initApp dcUninit cfgFalsy).2).isSome = true ∧
    (∃ g, sampleCfg9.backend = some g ∧ resolveBackend sampleCfg9 none = .ok g) ∧
    (∃ g, sampleCfg9.urls = some g ∧ resolveUrls sampleCfg9 none = .ok g) ∧
    resolveBackend cfgFalsy (some "dogpile.cache.redis") = .ok "dogpile.cache.redis" :=
  ⟨(C6_backend_urls_defaults cfgFalsy "a" 1 "b" [] none none [] []).1 rfl,
   (C6_backend_urls_defaults cfgFalsy "a" 1 "b" [] none none [] []).2.1 rfl,
   (C6_backend_urls_defaults cfgFalsy "a" 1 "b" [] none none [] []).2.2.2.2.2.2.1 rfl rfl,
   (C6_backend_urls_defaults sampleCfg9 "a" 1 "b" [] none none [] []).2.2.2.2.1 rfl,
   (C6_backend_urls_defaults sampleCfg9 "a" 1 "b" [] none none [] []).2.2.2.2.2.1 rfl,
   (C6_backend_urls_defaults cfgFalsy "a" 1 "dogpile.cache.redis" [] none none [] []).2.2.1⟩

/-! ### Claim C8 -/

/-- A sample unbound function object. -/
def sampleFunc : PyFuncObj := ⟨none, fun _ => 0⟩

/-- C8 counterexample: applying `region('day')` after `region('hour')` to
the same function records `'day'`, not `'hour'` — the attribute assignment
in `region` overwrites the earlier binding, so the binding is not
immutable as the claim states. -/
theorem C8_rebinding_counterexample :
    (regionDecorate "day" (regionDecorate "hour" sampleFunc)).attr = some "day" ∧
    (regionDecorate "day" (regionDecorate "hour" sampleFunc)).attr ≠ some "hour" := by
  constructor
  · rfl
  · intro h
    exact absurd (Option.some.inj h) (by decide)

/-- C8 amended: the region name recorded on a function is that of the most
recent `region` application — the decorator sets the attribute
unconditionally, so a second application of `region(r2)` overwrites `r1`,
and every later read through the attribute observes `r2`. -/
theorem C8_rebinding_overwrites (r1 r2 : String) (f : PyFuncObj) :
    (regionDecorate r2 (regionDecorate r1 f)).attr = some r2 ∧
    (∀ r g, (regionDecorate r g).attr = some r) :=
  ⟨rfl, fun _ _ => rfl⟩

/-! ### Claim C5 -/

/-- A configuration whose region tuples carry the same name `"a"`. -/
def cfgDup : Config :=
  ⟨some "dogpile.cache.memcached", some ["127.0.0.1:11211"], [],
   [RegionTuple.fields "a" 1 none none none, RegionTuple.fields "a" 2 none none none]⟩

/-- C5 counterexample: a configuration containing two region tuples with
the same name initializes WITHOUT error (the claim requires a ConfigError)
and builds a registry in which the later tuple overwrote the earlier. -/
theorem C5_duplicate_name_counterexample :
    (initApp dcUninit cfgDup).2 = none ∧
    (initApp dcUninit cfgDup).1.cacheRegions =
      some [("a", ⟨"dogpile.cache.memcached", 2,
        [("url", ArgVal.vlist ["127.0.0.1:11211"])]⟩)] :=
  ⟨rfl, rfl⟩

/-- C5 amended: duplicate region names are not detected — a configuration
of two individually valid tuples bearing the same name initializes
successfully and the registry maps that name to the configuration of the
LAST tuple (dict assignment overwrites). -/
theorem C5_duplicate_name_overwrites (cfg : Config) (t1 t2 : RegionTuple) (n : String)
    (c1 c2 : RegionConf)
    (hreg : cfg.regions = [t1, t2])
    (h1 : resolveTuple cfg t1 = .ok (n, c1))
    (h2 : resolveTuple cfg t2 = .ok (n, c2)) :
    (initApp dcUninit cfg).2 = none ∧
    (initApp dcUninit cfg).1.cacheRegions = some [(n, c2)] := by
  have hts : resolveTuples cfg [t1, t2] = .ok [(n, c1), (n, c2)] := by
    simp [resolveTuples, h1, h2]
  have hb := buildRegions_of_ok cfg [t1, t2] [(n, c1), (n, c2)] [] hts
  constructor
  · simp [initApp, hreg, hb]
  · simp [initApp, hreg, hb, alistSet]

/-- Witness for the amended C5 at the concrete duplicate configuration. -/
theorem C5_duplicate_name_overwrites_witness :
    (initApp dcUninit cfgDup).2 = none ∧
    (initApp dcUninit cfgDup).1.cacheRegions =
      some [("a", ⟨"dogpile.cache.memcached", 2,
        [("url", ArgVal.vlist ["127.0.0.1:11211"])]⟩)] :=
  C5_duplicate_name_overwrites cfgDup
    (RegionTuple.fields "a" 1 none none none) (RegionTuple.fields "a" 2 none none none)
    "a" ⟨"dogpile.cache.memcached", 1, [("url", ArgVal.vlist ["127.0.0.1:11211"])]⟩
    ⟨"dogpile.cache.memcached", 2, [("url", ArgVal.vlist ["127.0.0.1:11211"])]⟩
    rfl rfl rfl

/-! ### Claim C1 -/

/-- A configuration whose first tuple is valid and whose second tuple is
shorter than 2 elements, so the loop fails after configuring region "a". -/
def cfgPart : Config :=
  ⟨some "dogpile.cache.memcached", some ["127.0.0.1:11211"], [],
   [RegionTuple.fields "a" 1 none none none, RegionTuple.tooShort]⟩

/-- The registry entry configured before the failure in `cfgPart`. -/
def sampleEntryA : String × RegionConf :=
  ("a", ⟨"dogpile.cache.memcached", 1, [("url", ArgVal.vlist ["127.0.0.1:11211"])]⟩)

/-- C1 counterexample: when the second region tuple fails to configure,
the failure does propagate, but the facade does NOT stay Uninitialized —
a partial registry is published and the already-configured region "a" is
retrievable, contradicting the claim that every lookup still fails with
NotReady and that no region is retrievable. -/
theorem C1_partial_registry_counterexample :
    (initApp dcUninit cfgPart).2 = some (.valueError tupleTooShortMsg) ∧
    (initApp dcUninit cfgPart).1.cacheRegions ≠ none ∧
    getRegion (initApp dcUninit cfgPart).1 "a" = .ok sampleEntryA.2 := by
  refine ⟨rfl, ?_, rfl⟩
  intro h
  exact Option.noConfusion h

/-- C1 amended: if a region tuple fails to configure mid-loop, the failure
propagates to the caller of init, but a partial registry IS published:
`_cache_regions` becomes the dict of the regions configured before the
failing tuple, each of which remains retrievable via `get_region`. -/
theorem C1_partial_registry_published (cfg : Config) (ts1 : List RegionTuple)
    (t : RegionTuple) (ts2 : List RegionTuple) (l1 : List (String × RegionConf))
    (e : PyErr)
    (hreg : cfg.regions = ts1 ++ t :: ts2)
    (h1 : resolveTuples cfg ts1 = .ok l1)
    (he : resolveTuple cfg t = .error e) :
    (initApp dcUninit cfg).2 = some e ∧
    (initApp dcUninit cfg).1.cacheRegions =
      some (l1.foldl (fun a p => alistSet a p.1 p.2) []) ∧
    ∀ n c, alistLookup (l1.foldl (fun a p => alistSet a p.1 p.2) []) n = some c →
      getRegion (initApp dcUninit cfg).1 n = .ok c := by
  have hb := buildRegions_of_front_ok cfg ts1 l1 [] (t :: ts2) h1
  have hstep : buildRegions cfg (t :: ts2) (l1.foldl (fun a p => alistSet a p.1 p.2) []) =
      (l1.foldl (fun a p => alistSet a p.1 p.2) [], some e) := by
    simp [buildRegions, he]
  have hne : cfg.regions.isEmpty = false := by
    rw [hreg]; cases ts1 <;> rfl
  refine ⟨?_, ?_, ?_⟩
  · simp [initApp, hne, hreg, hb, hstep]
  · simp [initApp, hne, hreg, hb, hstep]
  · intro n c hl
    simp [initApp, hne, hreg, hb, hstep, getRegion, hl]

/-- Witness for the amended C1 at the concrete partially failing
configuration. -/
theorem C1_partial_registry_published_witness :
    (initApp dcUninit cfgPart).2 = some (.valueError tupleTooShortMsg) ∧
    (initApp dcUninit cfgPart).1.cacheRegions =
      some ([sampleEntryA].foldl (fun a p => alistSet a p.1 p.2) []) ∧
    ∀ n c, alistLookup ([sampleEntryA].foldl (fun a p => alistSet a p.1 p.2) []) n = some c →
      getRegion (initApp dcUninit cfgPart).1 n = .ok c :=
  C1_partial_registry_published cfgPart [RegionTuple.fields "a" 1 none none none]
    RegionTuple.tooShort [] [sampleEntryA] (.valueError tupleTooShortMsg) rfl rfl rfl

/-! ### Claim C7 -/

/-- C7: for a valid configuration — non-empty region list, every tuple
resolving, declared names pairwise distinct — with N region tuples,
initialization succeeds, the registry holds exactly N regions keyed by
the N declared names in order, and `get_all_regions` returns that
N-entry mapping. -/
theorem C7_registry_has_N_regions (cfg : Config) (l : List (String × RegionConf))
    (hok : resolveTuples cfg cfg.regions = .ok l)
    (hnd : (cfg.regions.map tupleName).Nodup)
    (hne : cfg.regions ≠ []) :
    (initApp dcUninit cfg).2 = none ∧
    (initApp dcUninit cfg).1.cacheRegions = some l ∧
    l.length = cfg.regions.length ∧
    l.map Prod.fst = cfg.regions.map tupleName ∧
    getAllRegions (initApp dcUninit cfg).1 = .ok l := by
  obtain ⟨hnames, hlen⟩ := resolveTuples_names cfg cfg.regions l hok
  have hfold : l.foldl (fun a p => alistSet a p.1 p.2) [] = l := by
    have := foldl_alistSet_of_fresh l []
      (by rw [hnames]; exact hnd) (fun p _ => rfl)
    simpa using this
  have hb := buildRegions_of_ok cfg cfg.regions l [] hok
  have hie : cfg.regions.isEmpty = false := by
    cases hr : cfg.regions with
    | nil => exact absurd hr hne
    | cons a as => rfl
  refine ⟨?_, ?_, hlen, hnames, ?_⟩
  · simp [initApp, hie, hb]
  · simp [initApp, hie, hb, hfold]
  · simp [initApp, hie, hb, hfold, getAllRegions]

/-- A valid two-region configuration for the C7 witness. -/
def cfgTwo : Config :=
  ⟨some "dogpile.cache.memcached", some ["127.0.0.1:11211"], [],
   [RegionTuple.fields "hour" 3600 none none none,
    RegionTuple.fields "day" 86400 none none none]⟩

/-- The registry the C7 witness expects. -/
def regTwo : List (String × RegionConf) :=
  [("hour", ⟨"dogpile.cache.memcached", 3600, [("url", ArgVal.vlist ["127.0.0.1:11211"])]⟩),
   ("day", ⟨"dogpile.cache.memcached", 86400, [("url", ArgVal.vlist ["127.0.0.1:11211"])]⟩)]

/-- Witness for C7 at the concrete two-region configuration. -/
theorem C7_registry_has_N_regions_witness :
    (initApp dcUninit cfgTwo).2 = none ∧
    (initApp dcUninit cfgTwo).1.cacheRegions = some regTwo ∧
    regTwo.length = cfgTwo.regions.length ∧
    regTwo.map Prod.fst = cfgTwo.regions.map tupleName ∧
    getAllRegions (initApp dcUninit cfgTwo).1 = .ok regTwo :=
  C7_registry_has_N_regions cfgTwo regTwo rfl (by decide) (by decide)

/-! ### Claim C4 -/

/-- C4 counterexample: invoking a bound wrapper while the facade is
Uninitialized fails with a TypeError — the membership test
`name in self._cache_regions` on the NotInitialized sentinel — and NOT
with the NotReady RuntimeError the claim requires for every operation. -/
theorem C4_wrapper_typeerror_counterexample :
    wrapperCall dcUninit "hour" (fun _ => 0) [] [] = .error .typeError ∧
    PyErr.typeError ≠ PyErr.notReady :=
  ⟨rfl, by decide⟩

/-- C4 amended: while the facade is Uninitialized every lifecycle and
lookup operation fails, but not uniformly with NotReady: `get_region`,
`get_all_regions`, `get_region_decorator`, `invalidate`, `refresh`,
`set`, `invalidate_region` and `invalidate_all_regions` fail with the
NotReady RuntimeError, whereas invoking a bound wrapper fails with a
TypeError; applying the `region(name)` decorator alone is legal and
records the binding. -/
theorem C4_uninitialized_operations (n : String) (body : Args → Int) (st : Store)
    (args : Args) (v : Int) (hard : Bool) (failing : List String) (f : PyFuncObj) :
    getRegion dcUninit n = .error .notReady ∧
    getAllRegions dcUninit = .error .notReady ∧
    getRegionDecorator dcUninit n = .error .notReady ∧
    facadeInvalidate dcUninit ⟨some n, body⟩ st args = .error .notReady ∧
    facadeRefresh dcUninit ⟨some n, body⟩ st args = .error .notReady ∧
    facadeSet dcUninit ⟨some n, body⟩ v st args = .error .notReady ∧
    invalidateRegion dcUninit failing n hard = .error .notReady ∧
    (invalidateAllRegions dcUninit failing hard).2 = some .notReady ∧
    wrapperCall dcUninit n body st args = .error .typeError ∧
    (regionDecorate n f).attr = some n :=
  ⟨rfl, rfl, rfl, rfl, rfl, rfl, rfl, rfl, rfl, rfl⟩

/-! ### Claim C2 -/

/-- The region configuration used by the concrete cache scenarios. -/
def sampleConfR : RegionConf :=
  ⟨"dogpile.cache.memcached", 3600, [("url", ArgVal.vlist ["127.0.0.1:11211"])]⟩

/-- A one-region registry. -/
def regOne : Registry := [("r", sampleConfR)]

/-- An initialized facade holding the one-region registry. -/
def dcOne : DogpileCache := ⟨some regOne⟩

/-- C2 counterexample: with a valid cached entry `2` for `args = []` and a
bound function whose body returns `1`, `refresh` returns the previously
cached `2` and leaves the store unchanged — it does not recompute the
function, because the facade hands the wrapper (whose call is a cache
read-through) to the engine's refresh. -/
theorem C2_refresh_counterexample :
    facadeRefresh dcOne ⟨some "r", fun _ => 1⟩ [("r", [([], 2)])] [] =
      .ok (2, [("r", [([], 2)])]) ∧
    (2 : Int) ≠ 1 :=
  ⟨rfl, by decide⟩

/-- C2 amended: `refresh` resolves the region and hands the wrapper to the
engine's refresh, so the "recomputation" is the wrapper's own
read-through call: when a valid cached entry for `args` exists, refresh
returns that cached value and leaves the store unchanged — for every
function body, i.e. the bound function is not called — and only when no
entry exists does it compute the body, store the result and return it. -/
theorem C2_refresh_is_readthrough (reg : Registry) (name : String) (conf : RegionConf)
    (body : Args → Int) (st : Store) (args : Args)
    (hreg : alistLookup reg name = some conf) :
    (∀ v, cacheGet (storeGetCache st name) args = some v →
      facadeRefresh ⟨some reg⟩ ⟨some name, body⟩ st args = .ok (v, st)) ∧
    (cacheGet (storeGetCache st name) args = none →
      facadeRefresh ⟨some reg⟩ ⟨some name, body⟩ st args =
        .ok (body args,
          storeSetCache st name (cacheSet (storeGetCache st name) args (body args)))) := by
  have hdec : getRegionDecorator ⟨some reg⟩ name = .ok conf := by
    simp [getRegionDecorator, getRegion, hreg]
  constructor
  · intro v hv
    have hst : alistLookup st name = some (storeGetCache st name) := by
      cases hst0 : alistLookup st name with
      | none =>
        exfalso
        rw [storeGetCache, hst0] at hv
        simp [cacheGet, alistLookup] at hv
      | some c0 => simp [storeGetCache, hst0]
    have hss : storeSetCache st name (storeGetCache st name) = st :=
      alistSet_eq_of_lookup st name _ hst
    have hct : callThrough (storeGetCache st name) body args = (v, storeGetCache st name) := by
      simp [callThrough, hv]
    have hwc : wrapperCall ⟨some reg⟩ name body st args = .ok (v, st) := by
      simp only [wrapperCall, hreg, Option.isSome_some, if_true, hct]
      rw [hss]
    have hcs : cacheSet (storeGetCache st name) args v = storeGetCache st name :=
      alistSet_eq_of_lookup _ _ _ hv
    simp only [facadeRefresh, hdec, hwc]
    rw [hcs, hss]
  · intro hmiss
    have hct : callThrough (storeGetCache st name) body args =
        (body args, cacheSet (storeGetCache st name) args (body args)) := by
      simp [callThrough, hmiss]
    have hwc : wrapperCall ⟨some reg⟩ name body st args =
        .ok (body args,
          storeSetCache st name (cacheSet (storeGetCache st name) args (body args))) := by
      simp only [wrapperCall, hreg, Option.isSome_some, if_true, hct]
    have hg1 : storeGetCache
        (storeSetCache st name (cacheSet (storeGetCache st name) args (body args))) name =
        cacheSet (storeGetCache st name) args (body args) := by
      simp [storeGetCache, storeSetCache, alistLookup_set_self]
    have hsetagain : cacheSet (cacheSet (storeGetCache st name) args (body args)) args
        (body args) = cacheSet (storeGetCache st name) args (body args) :=
      alistSet_eq_of_lookup _ _ _ (alistLookup_set_self _ _ _)
    have hss1 : storeSetCache
        (storeSetCache st name (cacheSet (storeGetCache st name) args (body args))) name
        (cacheSet (storeGetCache st name) args (body args)) =
        storeSetCache st name (cacheSet (storeGetCache st name) args (body args)) :=
      alistSet_eq_of_lookup _ _ _ (alistLookup_set_self _ _ _)
    simp only [facadeRefresh, hdec, hwc]
    rw [hg1, hsetagain, hss1]

/-- Witness for the amended C2: a cache hit returns the cached value
unchanged (body returns 7, cache holds 2, refresh yields 2), a miss
computes and stores the body's value. -/
theorem C2_refresh_is_readthrough_witness :
    facadeRefresh ⟨some regOne⟩ ⟨some "r", fun _ => 7⟩ [("r", [([], 2)])] [] =
      .ok (2, [("r", [([], 2)])]) ∧
    facadeRefresh ⟨some regOne⟩ ⟨some "r", fun _ => 7⟩ [] [] =
      .ok (7, storeSetCache [] "r" (cacheSet (storeGetCache [] "r") [] 7)) :=
  ⟨(C2_refresh_is_readthrough regOne "r" sampleConfR (fun _ => 7)
      [("r", [([], 2)])] [] rfl).1 2 rfl,
   (C2_refresh_is_readthrough regOne "r" sampleConfR (fun _ => 7) [] [] rfl).2 rfl⟩

/-! ### Claim C3 -/

theorem alistLookup_isSome_of_mem_keys {κ α : Type} [DecidableEq κ] (d : List (κ × α))
    (k : κ) (h : k ∈ d.map Prod.fst) : (alistLookup d k).isSome = true := by
  induction d with
  | nil => simp at h
  | cons p tl ih =>
    obtain ⟨k0, v0⟩ := p
    simp only [List.map_cons, List.mem_cons] at h
    by_cases hk : k0 = k
    · simp [alistLookup, hk]
    · rcases h with h | h
      · exact absurd h (fun he => hk he.symm)
      · simp [alistLookup, hk, ih h]

theorem invalidateAllLoop_characterization (reg : Registry) (failing : List String)
    (hard : Bool) :
    ∀ ns : List String, (∀ n ∈ ns, (alistLookup reg n).isSome = true) →
      (ns.dropWhile (fun k => !failing.contains k) = [] →
        invalidateAllLoop ⟨some reg⟩ failing hard ns = (ns, none)) ∧
      (∀ b rest, ns.dropWhile (fun k => !failing.contains k) = b :: rest →
        invalidateAllLoop ⟨some reg⟩ failing hard ns =
          (ns.takeWhile (fun k => !failing.contains k) ++ [b],
           some (.engineError b))) := by
  intro ns
  induction ns with
  | nil =>
    intro _
    constructor
    · intro _; rfl
    · intro b rest h; simp [List.dropWhile] at h
  | cons n ns ih =>
    intro hmem
    obtain ⟨c, hc⟩ := Option.isSome_iff_exists.mp (hmem n (List.mem_cons_self n ns))
    have hir : invalidateRegion ⟨some reg⟩ failing n hard =
        (if failing.contains n then .error (.engineError n) else .ok ()) := by
      simp [invalidateRegion, getRegion, hc]
    have ihtail := ih (fun m hm => hmem m (List.mem_cons_of_mem n hm))
    by_cases hfm : n ∈ failing
    · have hcond : ¬((!failing.contains n) = true) := by simp [hfm]
      constructor
      · intro h
        rw [List.dropWhile_cons, if_neg hcond] at h
        exact absurd h (List.cons_ne_nil n ns)
      · intro b rest h
        rw [List.dropWhile_cons, if_neg hcond] at h
        injection h with h1 h2
        subst h1
        subst h2
        simp [invalidateAllLoop, hir, hfm, List.takeWhile_cons]
    · have hcond : (!failing.contains n) = true := by simp [hfm]
      constructor
      · intro h
        rw [List.dropWhile_cons, if_pos hcond] at h
        simp [invalidateAllLoop, hir, hfm, (ihtail.1 h)]
      · intro b rest h
        rw [List.dropWhile_cons, if_pos hcond] at h
        simp [invalidateAllLoop, hir, hfm, ihtail.2 b rest h, List.takeWhile_cons]

/-- C3 amended: on an initialized facade, `invalidate_all_regions`
applies `invalidate_region` to the registered regions in registry order
but STOPS at the first region whose invalidation raises: the regions
before it are invalidated, the failing region is the last one attempted,
the regions after it are NOT attempted, and the first error is surfaced
to the caller; when no region fails, all regions are invalidated in
order and no error is raised. -/
theorem C3_invalidate_all_stops_at_first_error (reg : Registry) (failing : List String)
    (hard : Bool) :
    ((reg.map (fun p => p.1)).dropWhile (fun k => !failing.contains k) = [] →
      invalidateAllRegions ⟨some reg⟩ failing hard = (reg.map (fun p => p.1), none)) ∧
    (∀ b rest,
      (reg.map (fun p => p.1)).dropWhile (fun k => !failing.contains k) = b :: rest →
      invalidateAllRegions ⟨some reg⟩ failing hard =
        ((reg.map (fun p => p.1)).takeWhile (fun k => !failing.contains k) ++ [b],
         some (.engineError b))) := by
  have hloop := invalidateAllLoop_characterization reg failing hard
    (reg.map (fun p => p.1))
    (fun n hn => alistLookup_isSome_of_mem_keys reg n hn)
  constructor
  · intro h
    have := hloop.1 h
    simpa [invalidateAllRegions, getAllRegions] using this
  · intro b rest h
    have := hloop.2 b rest h
    simpa [invalidateAllRegions, getAllRegions] using this

/-- A three-region registry for the C3 scenario. -/
def regThree : Registry := [("a", sampleConfR), ("b", sampleConfR), ("c", sampleConfR)]

/-- An initialized facade holding the three-region registry. -/
def dcThree : DogpileCache := ⟨some regThree⟩

/-- C3 counterexample: with regions a, b, c in registry order and an
engine failure on b, `invalidate_all_regions` attempts only a and b —
region c, although registered, is never attempted, contradicting the
claim that the remaining regions are still attempted; the first error is
surfaced. -/
theorem C3_remaining_not_attempted_counterexample :
    (invalidateAllRegions dcThree ["b"] true).1 = ["a", "b"] ∧
    "c" ∉ (invalidateAllRegions dcThree ["b"] true).1 ∧
    "c" ∈ regThree.map (fun p => p.1) ∧
    (invalidateAllRegions dcThree ["b"] true).2 = some (.engineError "b") := by
  refine ⟨rfl, by decide, by decide, rfl⟩

/-- Witness for the amended C3: no failing region invalidates everything
in order; a failure on b attempts exactly a then b and surfaces b's
error. -/
theorem C3_invalidate_all_stops_at_first_error_witness :
    invalidateAllRegions ⟨some regThree⟩ [] true =
      (regThree.map (fun p => p.1), none) ∧
    invalidateAllRegions ⟨some regThree⟩ ["b"] true =
      ((regThree.map (fun p => p.1)).takeWhile (fun k => !(["b"].contains k)) ++ ["b"],
       some (.engineError "b")) :=
  ⟨(C3_invalidate_all_stops_at_first_error regThree [] true).1 (by decide),
   (C3_invalidate_all_stops_at_first_error regThree ["b"] true).2 "b" ["c"] (by decide)⟩
